import Mathlib

/-
Shallow embedding of the behavior-analysis core of the repository:
the per-student sliding-window feature buffer (src/memory/feature_buffer.py),
the temporal aggregator (src/signals/temporal_aggregator.py), the rule
engine (src/inference/behavior_rules.py) and the per-frame phone-risk
decay update (src/main.py). Python floats are modelled as rationals.
-/

/-! ## Numeric helpers -/

/-- Model of the Python builtin round-to-integer: nearest integer, ties to
even (bankers rounding). -/
def roundHalfEven (q : ℚ) : ℤ :=
  let f := Int.floor q
  let r := q - (f : ℚ)
  if r < 1/2 then f
  else if 1/2 < r then f + 1
  else if f % 2 = 0 then f else f + 1

/-- Model of the Python expression round(x, 3) used throughout
get_statistics and to_dict. -/
def pyRound3 (q : ℚ) : ℚ := ((roundHalfEven (q * 1000) : ℤ) : ℚ) / 1000

/-- Rendering of the Python format specifier :.1% (percentage with one
decimal digit), used only to build alert message strings. -/
def pct1 (x : ℚ) : String :=
  let m := roundHalfEven (x * 1000)
  toString (m / 10) ++ "." ++ toString (m % 10) ++ "%"

/-- The Python builtin min on two numbers: the first argument when the
two are equal. -/
def pymin (a b : ℚ) : ℚ := if a ≤ b then a else b

/-- The Python builtin max on two numbers: the first argument when the
two are equal. -/
def pymax (a b : ℚ) : ℚ := if b ≤ a then a else b

/-- Python dict assignment d[k] = v on an association list: replace the
entry with key k in place if present, otherwise append at the end. -/
def dictInsert {α : Type} : List (ℤ × α) → ℤ → α → List (ℤ × α)
  | [], k, v => [(k, v)]
  | p :: rest, k, v => if p.1 = k then (k, v) :: rest else p :: dictInsert rest k v

/-- Distinct elements of a list in order of first occurrence; models the
key order of a Python defaultdict populated by a left-to-right scan. -/
def firstOccs : List String → List String
  | [] => []
  | d :: rest => d :: (firstOccs rest).filter (fun x => !(x == d))

/-! ## Sliding-window feature buffer (src/memory/feature_buffer.py) -/

/-- BufferedFeature: a single feature snapshot with timestamp. -/
structure BufferedFeature where
  timestamp : ℚ
  head_direction : String
  phone_detected : Bool
  confidence : ℚ
  bbox : ℚ × ℚ × ℚ × ℚ
  identity_name : Option String := none
  deriving DecidableEq

/-- StudentFeatureBuffer: sliding-window buffer of features for one student. -/
structure StudentFeatureBuffer where
  track_id : ℤ
  window_size : ℚ := 60
  features : List BufferedFeature := []
  last_update : Option ℚ := none
  deriving DecidableEq

/-- The while-popleft loop of _prune_old_features: drop stale entries from
the head until the first entry at or after the cutoff. -/
def pruneOld (cutoff : ℚ) : List BufferedFeature → List BufferedFeature
  | [] => []
  | g :: rest => if g.timestamp < cutoff then pruneOld cutoff rest else g :: rest

/-- add_feature: append the new feature, set last_update, then prune
entries older than timestamp minus window_size. -/
def add_feature (b : StudentFeatureBuffer) (timestamp : ℚ) (head_direction : String)
    (phone_detected : Bool) (confidence : ℚ) (bbox : ℚ × ℚ × ℚ × ℚ)
    (identity_name : Option String) : StudentFeatureBuffer :=
  let feature : BufferedFeature :=
    { timestamp := timestamp, head_direction := head_direction,
      phone_detected := phone_detected, confidence := confidence,
      bbox := bbox, identity_name := identity_name }
  { b with
    features := pruneOld (timestamp - b.window_size) (b.features ++ [feature]),
    last_update := some timestamp }

/-- The dictionary returned by StudentFeatureBuffer.get_statistics, as a
record. The empty-buffer branch of the Python code omits the keys
time_span, most_recent_direction, phone_detections and identity_name; the
sole consumer (TemporalAggregator.aggregate) reads those keys with .get
defaults 0.0, None, -, None, which is what the empty branch below stores. -/
structure Stats where
  track_id : ℤ
  feature_count : ℕ
  time_span : ℚ
  avg_confidence : ℚ
  phone_detection_rate : ℚ
  phone_detections : ℕ
  head_direction_distribution : List (String × ℚ)
  most_recent_direction : Option String
  last_update : Option ℚ
  identity_name : Option String
  deriving DecidableEq

/-- The unrounded head-direction distribution: for each direction in order
of first occurrence, the fraction of features with that direction. -/
def distRaw (features : List BufferedFeature) : List (String × ℚ) :=
  (firstOccs (features.map (fun f => f.head_direction))).map
    (fun d => (d, (((features.map (fun f => f.head_direction)).count d : ℕ) : ℚ) /
                  (((features.map (fun f => f.head_direction)).length : ℕ) : ℚ)))

/-- get_statistics: windowed statistics of one student buffer. -/
def get_statistics (b : StudentFeatureBuffer) : Stats :=
  match b.features with
  | [] =>
    { track_id := b.track_id, feature_count := 0, time_span := 0,
      avg_confidence := 0, phone_detection_rate := 0, phone_detections := 0,
      head_direction_distribution := [], most_recent_direction := none,
      last_update := b.last_update, identity_name := none }
  | f :: fs =>
    let features_list := f :: fs
    let total := features_list.length
    let phone_detections := (features_list.filter (fun g => g.phone_detected)).length
    let phone_rate : ℚ := ((phone_detections : ℕ) : ℚ) / ((total : ℕ) : ℚ)
    let avg_conf : ℚ := (features_list.map (fun g => g.confidence)).sum / ((total : ℕ) : ℚ)
    { track_id := b.track_id,
      feature_count := total,
      time_span := if 1 < features_list.length then
          (features_list.getLastD f).timestamp - f.timestamp else 0,
      avg_confidence := pyRound3 avg_conf,
      phone_detection_rate := pyRound3 phone_rate,
      phone_detections := phone_detections,
      head_direction_distribution := (distRaw features_list).map (fun p => (p.1, pyRound3 p.2)),
      most_recent_direction := some (features_list.getLastD f).head_direction,
      last_update := b.last_update,
      identity_name := (features_list.getLastD f).identity_name }

/-- FeatureBuffer: the per-track map of student buffers. -/
structure FeatureBuffer where
  window_size : ℚ := 60
  buffers : List (ℤ × StudentFeatureBuffer) := []
  deriving DecidableEq

/-- get_student_statistics: statistics for one track id, or an explicit
absent result when the id is unknown. -/
def get_student_statistics (fb : FeatureBuffer) (track_id : ℤ) : Option Stats :=
  match fb.buffers.lookup track_id with
  | some b => some (get_statistics b)
  | none => none

/-- The inactivity test of cleanup_inactive_students for one buffer:
buffers with no last_update are skipped by the continue statement. -/
def cleanupPred (now timeout : ℚ) (b : StudentFeatureBuffer) : Bool :=
  match b.last_update with
  | none => false
  | some t => decide (timeout < now - t)

/-- cleanup_inactive_students: collect the track ids whose buffer is stale,
delete those buffers, and return the new map with the removed ids. -/
def cleanup_inactive_students (fb : FeatureBuffer) (now timeout : ℚ) :
    FeatureBuffer × List ℤ :=
  ({ fb with buffers := fb.buffers.filter (fun p => !(cleanupPred now timeout p.2)) },
   (fb.buffers.filter (fun p => cleanupPred now timeout p.2)).map (fun p => p.1))

/-! ## Temporal aggregator (src/signals/temporal_aggregator.py) -/

/-- BehavioralMetrics: aggregated behavioral metrics for one student. -/
structure BehavioralMetrics where
  track_id : ℤ
  timestamp : ℚ
  observation_duration : ℚ
  sample_count : ℕ
  attention_score : ℚ
  looking_away_rate : ℚ
  direction_stability : ℚ
  phone_risk_score : ℚ
  phone_detection_rate : ℚ
  phone_trend : String
  engagement_risk_level : String
  engagement_risk_score : ℚ
  primary_behavior : String
  avg_confidence : ℚ
  data_quality : String
  identity_name : Option String := none
  deriving DecidableEq

/-- The state of a TemporalAggregator: the phone_history map from track id
to the list of historical risk samples for that track. -/
abbrev AggState := List (ℤ × List ℚ)

/-- cleanup_track_history: delete the phone_history entry of one track. -/
def cleanup_track_history (st : AggState) (track_id : ℤ) : AggState :=
  st.filter (fun p => !(p.1 == track_id))

/-- The body of _calculate_phone_trend once the history list of the track
has been fetched (the current rate argument of the Python method is unused
by the computation). -/
def calcPhoneTrendHist (history : List ℚ) : String :=
  if history.length < 2 then "stable"
  else
    let recent_avg : ℚ :=
      if 3 ≤ history.length then (history.drop (history.length - 3)).sum / 3
      else history.getLastD 0
    let older_avg : ℚ :=
      if 3 ≤ history.length then
        (if 3 < history.length then
            (history.take (history.length - 3)).sum / (((history.length - 3 : ℕ)) : ℚ)
         else history.headD 0)
      else history.headD 0
    if older_avg + 1/10 < recent_avg then "increasing"
    else if recent_avg < older_avg - 1/10 then "decreasing"
    else "stable"

/-- _calculate_phone_trend: stable when the track has no history entry,
otherwise classified from the history list. -/
def calc_phone_trend (st : AggState) (track_id : ℤ) (current_phone_rate : ℚ) : String :=
  match st.lookup track_id with
  | none => "stable"
  | some history => calcPhoneTrendHist history

/-- _calculate_phone_risk: fallback risk, the detection rate clamped to
the unit interval. -/
def calc_phone_risk (track_id : ℤ) (current_phone_rate : ℚ) : ℚ :=
  pymin 1 (pymax 0 current_phone_rate)

/-- _determine_primary_behavior. -/
def determine_primary_behavior (attention_score : ℚ) (phone_rate : ℚ)
    (head_directions : List (String × ℚ)) : String :=
  if (0.3 : ℚ) < phone_rate then "distracted_phone"
  else if attention_score < (0.5 : ℚ) then "distracted_other"
  else "attentive"

/-- _calculate_engagement_risk: the weighted combination, clamped to the
unit interval. -/
def calc_engagement_risk (attention_score phone_risk looking_away_rate : ℚ) : ℚ :=
  pymin 1 (pymax 0 ((1 - attention_score) * 0.4 + phone_risk * 0.35 + looking_away_rate * 0.25))

/-- _classify_risk_level. -/
def classify_risk_level (risk_score : ℚ) : String :=
  if risk_score < (0.33 : ℚ) then "low"
  else if risk_score < (0.67 : ℚ) then "medium"
  else "high"

/-- _assess_data_quality. -/
def assess_data_quality (sample_count : ℕ) (avg_confidence : ℚ) : String :=
  if sample_count < 5 ∨ avg_confidence < (0.6 : ℚ) then "low"
  else if sample_count < 20 ∨ avg_confidence < (0.75 : ℚ) then "medium"
  else "high"

/-- _create_empty_metrics: the fixed neutral snapshot for a track with no
buffered data. -/
def create_empty_metrics (track_id : ℤ) (current_timestamp : ℚ) : BehavioralMetrics :=
  { track_id := track_id, timestamp := current_timestamp,
    observation_duration := 0, sample_count := 0,
    attention_score := 0.5, looking_away_rate := 0.5,
    direction_stability := 0,
    phone_risk_score := 0, phone_detection_rate := 0, phone_trend := "stable",
    engagement_risk_level := "low", engagement_risk_score := 0.5,
    primary_behavior := "unknown", avg_confidence := 0, data_quality := "low" }

/-- The attention score computed by aggregate: 1 exactly when the most
recent head direction is forward, else 0. -/
def attScore (stats : Stats) : ℚ :=
  if stats.most_recent_direction = some "forward" then 1 else 0

/-- The direction stability computed by aggregate: the maximum fraction in
the head-direction distribution, or one half when the distribution is
empty. -/
def dirStab (stats : Stats) : ℚ :=
  match stats.head_direction_distribution with
  | [] => 0.5
  | p :: ps => (ps.map (fun q => q.2)).foldl pymax p.2

/-- The phone risk score chosen by aggregate: the raw fused risk when it
is supplied, else the fallback from the buffered detection rate. -/
def phoneRiskOf (track_id : ℤ) (stats : Stats) (raw_phone_risk : Option ℚ) : ℚ :=
  match raw_phone_risk with
  | some r => r
  | none => calc_phone_risk track_id stats.phone_detection_rate

/-- The phone trend chosen by aggregate: classified from the fused risk
when it is supplied, else from the buffered detection rate. -/
def phoneTrendOf (st : AggState) (track_id : ℤ) (stats : Stats)
    (raw_phone_risk : Option ℚ) : String :=
  match raw_phone_risk with
  | some r => calc_phone_trend st track_id r
  | none => calc_phone_trend st track_id stats.phone_detection_rate

/-- The metrics record built by the non-empty branch of aggregate. -/
def aggregateMetrics (st : AggState) (track_id : ℤ) (current_timestamp : ℚ)
    (stats : Stats) (raw_phone_risk : Option ℚ) : BehavioralMetrics :=
  { track_id := track_id, timestamp := current_timestamp,
    identity_name := stats.identity_name,
    observation_duration := stats.time_span,
    sample_count := stats.feature_count,
    attention_score := attScore stats,
    looking_away_rate := 1 - attScore stats,
    direction_stability := dirStab stats,
    phone_risk_score := phoneRiskOf track_id stats raw_phone_risk,
    phone_detection_rate := stats.phone_detection_rate,
    phone_trend := phoneTrendOf st track_id stats raw_phone_risk,
    engagement_risk_level := classify_risk_level
      (calc_engagement_risk (attScore stats) (phoneRiskOf track_id stats raw_phone_risk)
        (1 - attScore stats)),
    engagement_risk_score := calc_engagement_risk (attScore stats)
      (phoneRiskOf track_id stats raw_phone_risk) (1 - attScore stats),
    primary_behavior := determine_primary_behavior (attScore stats)
      stats.phone_detection_rate stats.head_direction_distribution,
    avg_confidence := stats.avg_confidence,
    data_quality := assess_data_quality stats.feature_count stats.avg_confidence }

/-- aggregate: the Python method never writes self.phone_history, so the
returned state is the input state in both branches. -/
def aggregate (st : AggState) (track_id : ℤ) (current_timestamp : ℚ)
    (buffer_stats : Stats) (raw_phone_risk : Option ℚ) :
    AggState × BehavioralMetrics :=
  if buffer_stats.feature_count = 0 then
    (st, create_empty_metrics track_id current_timestamp)
  else
    (st, aggregateMetrics st track_id current_timestamp buffer_stats raw_phone_risk)

/-- The arguments of one aggregate call. -/
structure AggArgs where
  track_id : ℤ
  timestamp : ℚ
  stats : Stats
  raw : Option ℚ
  deriving DecidableEq

/-- One aggregate call against the accumulated state, appending the
produced metrics. -/
def aggStep (acc : AggState × List BehavioralMetrics) (c : AggArgs) :
    AggState × List BehavioralMetrics :=
  let r := aggregate acc.1 c.track_id c.timestamp c.stats c.raw
  (r.1, acc.2 ++ [r.2])

/-- A sequence of aggregate calls run against a fresh TemporalAggregator,
returning the final state and the list of produced metrics. -/
def runAggregates (calls : List AggArgs) : AggState × List BehavioralMetrics :=
  calls.foldl aggStep (([] : AggState), ([] : List BehavioralMetrics))

/-- Modelled from the claim text of the trend rule, for comparison with
the code: with fewer than 3 samples preceding the last 3, the older value
is the single earliest sample. -/
def phone_trend_claim (history : List ℚ) : String :=
  if history.length < 2 then "stable"
  else if 3 ≤ history.length then
    let recent_avg : ℚ := (history.drop (history.length - 3)).sum / 3
    let older_avg : ℚ :=
      if history.length - 3 < 3 then history.headD 0
      else (history.take (history.length - 3)).sum / (((history.length - 3 : ℕ)) : ℚ)
    if older_avg + 1/10 < recent_avg then "increasing"
    else if recent_avg < older_avg - 1/10 then "decreasing"
    else "stable"
  else
    if (history.headD 0) + 1/10 < history.getLastD 0 then "increasing"
    else if history.getLastD 0 < (history.headD 0) - 1/10 then "decreasing"
    else "stable"

/-! ## Rule engine (src/inference/behavior_rules.py) -/

/-- Alert severity levels. -/
inductive AlertLevel where
  | INFO
  | WARNING
  | CRITICAL
  deriving DecidableEq

/-- Types of behavioral alerts. -/
inductive AlertType where
  | SUSTAINED_INATTENTION
  | PHONE_USAGE
  | PHONE_USAGE_INCREASING
  | COMBINED_DISTRACTION
  | HIGH_RISK_BEHAVIOR
  | ATTENTION_DROP
  | QUALITY_WARNING
  deriving DecidableEq

/-- A value of the heterogeneous supporting-metrics dictionary attached to
an alert. -/
inductive MVal where
  | q (x : ℚ)
  | s (x : String)
  | n (x : ℕ)
  deriving DecidableEq

/-- BehaviorAlert: one behavioral alert. -/
structure BehaviorAlert where
  track_id : ℤ
  timestamp : ℚ
  alert_type : AlertType
  alert_level : AlertLevel
  message : String
  metrics : List (String × MVal)
  recommended_action : String
  identity_name : Option String := none
  deriving DecidableEq

/-- The Python expression identity_name or f-string: the recognised name
when it is present and non-empty, else the numbered fallback. -/
def studentRef (m : BehavioralMetrics) : String :=
  match m.identity_name with
  | some s => if s = "" then "Student #" ++ toString m.track_id else s
  | none => "Student #" ++ toString m.track_id

/-- BehaviorRuleEngine: thresholds (at their defaults) and the
previous-metrics map. -/
structure BehaviorRuleEngine where
  attention_threshold : ℚ := 0.5
  phone_risk_threshold : ℚ := 0.4
  engagement_risk_threshold : ℚ := 0.6
  min_samples_for_alert : ℕ := 5
  previous_metrics : List (ℤ × BehavioralMetrics) := []
  deriving DecidableEq

/-- The INFO quality alert emitted by the low-quality short-circuit. -/
def qualityAlert (m : BehavioralMetrics) : BehaviorAlert :=
  { track_id := m.track_id, timestamp := m.timestamp,
    alert_type := AlertType.QUALITY_WARNING, alert_level := AlertLevel.INFO,
    message := "Low data quality for " ++ studentRef m,
    metrics := [("sample_count", MVal.n m.sample_count)],
    recommended_action := "Wait for more samples before making decisions",
    identity_name := m.identity_name }

/-- _rule_high_risk. -/
def rule_high_risk (m : BehavioralMetrics) : BehaviorAlert :=
  { track_id := m.track_id, timestamp := m.timestamp,
    alert_type := AlertType.HIGH_RISK_BEHAVIOR, alert_level := AlertLevel.CRITICAL,
    message := studentRef m ++ " shows high-risk behavior pattern",
    metrics := [("engagement_risk_score", MVal.q m.engagement_risk_score),
                ("primary_behavior", MVal.s m.primary_behavior),
                ("attention_score", MVal.q m.attention_score),
                ("phone_risk_score", MVal.q m.phone_risk_score)],
    recommended_action := "Immediate intervention recommended - check on student",
    identity_name := m.identity_name }

/-- _rule_sustained_inattention. -/
def rule_sustained_inattention (m : BehavioralMetrics) : BehaviorAlert :=
  { track_id := m.track_id, timestamp := m.timestamp,
    alert_type := AlertType.SUSTAINED_INATTENTION,
    alert_level := if m.attention_score < (0.3 : ℚ) then AlertLevel.CRITICAL
                   else AlertLevel.WARNING,
    message := studentRef m ++ " showing sustained inattention (" ++
               pct1 m.attention_score ++ ")",
    metrics := [("attention_score", MVal.q m.attention_score),
                ("looking_away_rate", MVal.q m.looking_away_rate),
                ("duration", MVal.q m.observation_duration),
                ("sample_count", MVal.n m.sample_count)],
    recommended_action := "Monitor closely or provide gentle reminder to focus",
    identity_name := m.identity_name }

/-- _rule_phone_usage. -/
def rule_phone_usage (m : BehavioralMetrics) : BehaviorAlert :=
  { track_id := m.track_id, timestamp := m.timestamp,
    alert_type := AlertType.PHONE_USAGE,
    alert_level := if (0.6 : ℚ) < m.phone_risk_score then AlertLevel.CRITICAL
                   else AlertLevel.WARNING,
    message := studentRef m ++ " likely using phone (risk: " ++
               pct1 m.phone_risk_score ++ ")",
    metrics := [("phone_risk_score", MVal.q m.phone_risk_score),
                ("phone_detection_rate", MVal.q m.phone_detection_rate),
                ("phone_trend", MVal.s m.phone_trend)],
    recommended_action := "Politely ask student to put away phone",
    identity_name := m.identity_name }

/-- _rule_phone_increasing. -/
def rule_phone_increasing (m : BehavioralMetrics) : BehaviorAlert :=
  { track_id := m.track_id, timestamp := m.timestamp,
    alert_type := AlertType.PHONE_USAGE_INCREASING, alert_level := AlertLevel.WARNING,
    message := studentRef m ++ " phone usage trend is increasing",
    metrics := [("phone_trend", MVal.s m.phone_trend),
                ("phone_detection_rate", MVal.q m.phone_detection_rate),
                ("phone_risk_score", MVal.q m.phone_risk_score)],
    recommended_action := "Watch closely - may need intervention soon",
    identity_name := m.identity_name }

/-- _rule_combined_distraction. -/
def rule_combined_distraction (m : BehavioralMetrics) : BehaviorAlert :=
  { track_id := m.track_id, timestamp := m.timestamp,
    alert_type := AlertType.COMBINED_DISTRACTION, alert_level := AlertLevel.CRITICAL,
    message := studentRef m ++ " showing combined distraction (phone + looking away)",
    metrics := [("phone_risk_score", MVal.q m.phone_risk_score),
                ("looking_away_rate", MVal.q m.looking_away_rate),
                ("attention_score", MVal.q m.attention_score)],
    recommended_action := "Immediate intervention - student is significantly distracted",
    identity_name := m.identity_name }

/-- _rule_attention_drop: requires a previous snapshot for the track. -/
def rule_attention_drop (e : BehaviorRuleEngine) (m : BehavioralMetrics) :
    Option BehaviorAlert :=
  match e.previous_metrics.lookup m.track_id with
  | none => none
  | some prev =>
    if m.attention_score - prev.attention_score < (-0.3 : ℚ) ∧ 5 ≤ m.sample_count then
      some { track_id := m.track_id, timestamp := m.timestamp,
             alert_type := AlertType.ATTENTION_DROP, alert_level := AlertLevel.WARNING,
             message := studentRef m ++ " attention dropped significantly",
             metrics := [("previous_attention", MVal.q prev.attention_score),
                         ("current_attention", MVal.q m.attention_score),
                         ("change", MVal.q (m.attention_score - prev.attention_score))],
             recommended_action := "Check if student needs help or is confused",
             identity_name := m.identity_name }
    else none

/-- evaluate: the low-quality short-circuit returns before the history
update, so the input engine is returned unchanged on that path; on the
normal path the six rules run in order and the history slot of the track
is overwritten with the current metrics. -/
def evaluate (e : BehaviorRuleEngine) (m : BehavioralMetrics) :
    BehaviorRuleEngine × List BehaviorAlert :=
  if m.data_quality = "low" ∧ m.sample_count < 3 then
    (e, if 0 < m.sample_count then [qualityAlert m] else [])
  else
    let alerts :=
      (if m.engagement_risk_level = "high" then [rule_high_risk m] else []) ++
      (if m.attention_score < e.attention_threshold ∧
          e.min_samples_for_alert ≤ m.sample_count then
        [rule_sustained_inattention m] else []) ++
      (if e.phone_risk_threshold < m.phone_risk_score then [rule_phone_usage m] else []) ++
      (if m.phone_trend = "increasing" ∧ (0.2 : ℚ) < m.phone_detection_rate then
        [rule_phone_increasing m] else []) ++
      (if (0.3 : ℚ) < m.phone_risk_score ∧ (0.6 : ℚ) < m.looking_away_rate then
        [rule_combined_distraction m] else []) ++
      (match rule_attention_drop e m with
       | some a => [a]
       | none => [])
    ({ e with previous_metrics := dictInsert e.previous_metrics m.track_id m }, alerts)

/-! ## Per-frame phone-risk decay (src/main.py) -/

/-- One per-frame update of the student_phone_risk scalar: jump to 1 when
a phone is in contact this frame, else multiply by the 0.85 decay factor. -/
def phoneRiskStep (risk : ℚ) (contact : Bool) : ℚ :=
  if contact then 1 else risk * 0.85

/-- The risk scalar after a sequence of per-frame contact flags, starting
from the dict default 0. -/
def foldPhoneRisk (flags : List Bool) : ℚ :=
  flags.foldl phoneRiskStep 0


/-! ## Concrete inputs used by witnesses and counterexamples -/

/-- A fresh rule engine with all thresholds at their defaults. -/
def defaultEngine : BehaviorRuleEngine := {}

/-- A low-quality metrics record with two samples and extreme values in
every other field. -/
def mLow : BehavioralMetrics :=
  { track_id := 7, timestamp := 100, observation_duration := 1, sample_count := 2,
    attention_score := 0, looking_away_rate := 1, direction_stability := 1,
    phone_risk_score := 1, phone_detection_rate := 1, phone_trend := "increasing",
    engagement_risk_level := "high", engagement_risk_score := 1,
    primary_behavior := "distracted_phone", avg_confidence := 0.5,
    data_quality := "low" }

/-- A high-quality metrics record that does not take the short-circuit. -/
def mGood : BehavioralMetrics :=
  { track_id := 3, timestamp := 50, observation_duration := 9, sample_count := 10,
    attention_score := 1, looking_away_rate := 0, direction_stability := 1,
    phone_risk_score := 0, phone_detection_rate := 0, phone_trend := "stable",
    engagement_risk_level := "low", engagement_risk_score := 0,
    primary_behavior := "attentive", avg_confidence := 0.9, data_quality := "high" }

/-- Buffer statistics of a student looking left with five samples. -/
def statsLeft : Stats :=
  { track_id := 1, feature_count := 5, time_span := 4, avg_confidence := 0.9,
    phone_detection_rate := 0, phone_detections := 0,
    head_direction_distribution := [("left", 1)],
    most_recent_direction := some "left", last_update := some 4,
    identity_name := none }

/-- A student buffer that has never received a feature. -/
def emptyBuf : StudentFeatureBuffer := { track_id := 9 }

/-- The trend classification step shared by the code and the claim text:
compare the recent value against the older value with tolerance 0.1. -/
def trend_classify (recent older : ℚ) : String :=
  if older + 1/10 < recent then "increasing"
  else if recent < older - 1/10 then "decreasing"
  else "stable"

/-- The risk history of the trend-determinism test vector. -/
def hTrend : List ℚ := [0.1, 0.1, 0.9, 0.9, 0.9]

/-- A buffer with two features inside a 10 second window, used to
exercise pruning. -/
def b6 : StudentFeatureBuffer :=
  { track_id := 1, window_size := 10,
    features := [{ timestamp := 0, head_direction := "forward", phone_detected := false,
                   confidence := 1, bbox := (0, 0, 0, 0) },
                 { timestamp := 5, head_direction := "left", phone_detected := false,
                   confidence := 1, bbox := (0, 0, 0, 0) }],
    last_update := some 5 }

/-- A feature-buffer map with one stale and one fresh student. -/
def fb9 : FeatureBuffer :=
  { window_size := 60,
    buffers := [(1, { track_id := 1, last_update := some 0 }),
                (2, { track_id := 2, last_update := some 90 })] }

/-- A buffer holding three features with three distinct head directions. -/
def bDist : StudentFeatureBuffer :=
  { track_id := 1, window_size := 60,
    features := [{ timestamp := 0, head_direction := "forward", phone_detected := false,
                   confidence := 1, bbox := (0, 0, 0, 0) },
                 { timestamp := 1, head_direction := "left", phone_detected := false,
                   confidence := 1, bbox := (0, 0, 0, 0) },
                 { timestamp := 2, head_direction := "right", phone_detected := false,
                   confidence := 1, bbox := (0, 0, 0, 0) }],
    last_update := some 2 }

/-! ## C7: phone-risk decay bounds -/

/-- The fold of phoneRiskStep keeps any unit-interval start inside the
unit interval. -/
theorem foldl_phoneRisk_bounds (flags : List Bool) (r : ℚ)
    (h0 : 0 ≤ r) (h1 : r ≤ 1) :
    0 ≤ flags.foldl phoneRiskStep r ∧ flags.foldl phoneRiskStep r ≤ 1 := by
  induction flags generalizing r with
  | nil => exact ⟨h0, h1⟩
  | cons c cs ih =>
    rw [List.foldl_cons]
    apply ih
    · cases c
      · simp only [phoneRiskStep, if_neg Bool.false_ne_true]
        positivity
      · simp [phoneRiskStep]
    · cases c
      · simp only [phoneRiskStep, if_neg Bool.false_ne_true]
        nlinarith
      · simp [phoneRiskStep]

/-- C7: starting from risk 0, for any finite sequence of per-frame contact
flags the risk scalar stays in the unit interval at every step, and it
equals exactly 1 immediately after any contact frame. -/
theorem phone_risk_decay_bounds (flags : List Bool) :
    (∀ p, p <+: flags → 0 ≤ foldPhoneRisk p ∧ foldPhoneRisk p ≤ 1) ∧
    (∀ p, p ++ [true] <+: flags → foldPhoneRisk (p ++ [true]) = 1) := by
  constructor
  · intro p _
    exact foldl_phoneRisk_bounds p 0 le_rfl (by norm_num)
  · intro p _
    unfold foldPhoneRisk
    rw [List.foldl_append]
    rfl

/-- Witness for C7 at the concrete flag sequence false, true, false. -/
theorem phone_risk_decay_bounds_witness :
    ([false, true] <+: [false, true, false] ∧
      0 ≤ foldPhoneRisk [false, true] ∧ foldPhoneRisk [false, true] ≤ 1) ∧
    foldPhoneRisk ([false] ++ [true]) = 1 :=
  ⟨⟨by decide, (phone_risk_decay_bounds [false, true, false]).1 [false, true] (by decide)⟩,
   (phone_risk_decay_bounds [false, true, false]).2 [false] (by decide)⟩

/-! ## C3: low-quality short-circuit of the rule engine -/

/-- C3: on a low-quality metrics record with fewer than 3 samples,
evaluate returns exactly one INFO quality alert when the sample count is
positive and the empty list when it is zero; no other rule contributes. -/
theorem evaluate_low_quality_short_circuit (e : BehaviorRuleEngine)
    (m : BehavioralMetrics) (hq : m.data_quality = "low") (hc : m.sample_count < 3) :
    (0 < m.sample_count →
      (evaluate e m).2 = [qualityAlert m] ∧
      (qualityAlert m).alert_type = AlertType.QUALITY_WARNING ∧
      (qualityAlert m).alert_level = AlertLevel.INFO) ∧
    (m.sample_count = 0 → (evaluate e m).2 = []) := by
  constructor
  · intro hpos
    have he : evaluate e m = (e, [qualityAlert m]) := by
      unfold evaluate
      rw [if_pos ⟨hq, hc⟩, if_pos hpos]
    rw [he]
    exact ⟨rfl, rfl, rfl⟩
  · intro h0
    have he : evaluate e m = (e, []) := by
      unfold evaluate
      rw [if_pos ⟨hq, hc⟩, if_neg (by omega)]
    rw [he]

/-- Witness for C3 at the concrete record mLow. -/
theorem evaluate_low_quality_short_circuit_witness :
    0 < mLow.sample_count ∧
    (evaluate defaultEngine mLow).2 = [qualityAlert mLow] ∧
    (qualityAlert mLow).alert_type = AlertType.QUALITY_WARNING ∧
    (qualityAlert mLow).alert_level = AlertLevel.INFO :=
  ⟨by decide,
   (evaluate_low_quality_short_circuit defaultEngine mLow (by decide) (by decide)).1
     (by decide)⟩

/-! ## C1: history update of the rule engine -/

/-- Looking up the inserted key after a dict assignment yields the
inserted value. -/
theorem lookup_dictInsert {α : Type} (l : List (ℤ × α)) (k : ℤ) (v : α) :
    (dictInsert l k v).lookup k = some v := by
  induction l with
  | nil => simp [dictInsert, List.lookup]
  | cons p rest ih =>
    by_cases hp : p.1 = k
    · simp [dictInsert, hp, List.lookup]
    · obtain ⟨a, b⟩ := p
      simp only at hp
      have hba : (k == a) = false := beq_eq_false_iff_ne.mpr (Ne.symm hp)
      simp [dictInsert, hp, List.lookup, hba, ih]

/-- C1 counterexample: a call that takes the low-quality short-circuit
path returns without storing the current snapshot, so the claim fails on
the code at the concrete record mLow. -/
theorem evaluate_short_circuit_skips_history_update :
    (evaluate defaultEngine mLow).1.previous_metrics.lookup mLow.track_id ≠
      some mLow := by decide

/-- C1 amended: on every call that does not take the low-quality
short-circuit the current snapshot replaces the previous one for the
track, regardless of whether any alert fired; a short-circuit call
returns the engine state unchanged. -/
theorem evaluate_history_update (e : BehaviorRuleEngine) (m : BehavioralMetrics) :
    (¬(m.data_quality = "low" ∧ m.sample_count < 3) →
      (evaluate e m).1.previous_metrics.lookup m.track_id = some m) ∧
    ((m.data_quality = "low" ∧ m.sample_count < 3) → (evaluate e m).1 = e) := by
  constructor
  · intro h
    have he : (evaluate e m).1 =
        { e with previous_metrics := dictInsert e.previous_metrics m.track_id m } := by
      unfold evaluate
      rw [if_neg h]
    rw [he]
    exact lookup_dictInsert e.previous_metrics m.track_id m
  · intro h
    unfold evaluate
    rw [if_pos h]

/-- Witness for C1 amended at the concrete record mGood. -/
theorem evaluate_history_update_witness :
    ¬(mGood.data_quality = "low" ∧ mGood.sample_count < 3) ∧
    (evaluate defaultEngine mGood).1.previous_metrics.lookup mGood.track_id =
      some mGood :=
  ⟨by decide, (evaluate_history_update defaultEngine mGood).1 (by decide)⟩

/-! ## C8: idempotent empty aggregation -/

/-- C8: aggregating a track whose statistics report zero samples never
fails and always yields the fixed neutral snapshot, independent of the
aggregator state, the statistics record and the fused risk input. -/
theorem aggregate_empty_neutral (st : AggState) (track_id : ℤ) (ts : ℚ)
    (stats : Stats) (raw : Option ℚ) (h : stats.feature_count = 0) :
    (aggregate st track_id ts stats raw).2 = create_empty_metrics track_id ts ∧
    (create_empty_metrics track_id ts).attention_score = 0.5 ∧
    (create_empty_metrics track_id ts).engagement_risk_level = "low" ∧
    (create_empty_metrics track_id ts).data_quality = "low" ∧
    (create_empty_metrics track_id ts).primary_behavior = "unknown" := by
  refine ⟨?_, rfl, rfl, rfl, rfl⟩
  unfold aggregate
  rw [if_pos h]

/-- Witness for C8 at a never-filled student buffer. -/
theorem aggregate_empty_neutral_witness :
    (get_statistics emptyBuf).feature_count = 0 ∧
    (aggregate [] 9 42 (get_statistics emptyBuf) none).2 = create_empty_metrics 9 42 :=
  ⟨by decide,
   (aggregate_empty_neutral [] 9 42 (get_statistics emptyBuf) none (by decide)).1⟩

/-! ## C2: the aggregator never appends to phone_history -/

/-- aggregate returns its input state unchanged in both branches. -/
theorem aggregate_fst (st : AggState) (tid : ℤ) (ts : ℚ) (stats : Stats)
    (raw : Option ℚ) : (aggregate st tid ts stats raw).1 = st := by
  unfold aggregate
  split <;> rfl

/-- Against an empty phone_history, every aggregate call classifies the
trend as stable. -/
theorem aggregate_nil_trend (tid : ℤ) (ts : ℚ) (stats : Stats) (raw : Option ℚ) :
    ((aggregate ([] : AggState) tid ts stats raw).2).phone_trend = "stable" := by
  unfold aggregate
  split
  · rfl
  · cases raw <;>
      simp [aggregateMetrics, phoneTrendOf, calc_phone_trend, List.lookup]

/-- One step of runAggregates from an empty state keeps the state empty
and appends the produced metrics. -/
theorem aggStep_nil (acc : List BehavioralMetrics) (c : AggArgs) :
    aggStep (([] : AggState), acc) c =
      (([] : AggState),
       acc ++ [(aggregate ([] : AggState) c.track_id c.timestamp c.stats c.raw).2]) := by
  simp only [aggStep]
  rw [aggregate_fst]

/-- Fold invariant for C2: starting from the empty state, every produced
metrics record has a stable phone trend. -/
theorem runAgg_trend_aux (calls : List AggArgs) (acc : List BehavioralMetrics)
    (hacc : ∀ m ∈ acc, m.phone_trend = "stable") :
    ∀ m ∈ (calls.foldl aggStep (([] : AggState), acc)).2, m.phone_trend = "stable" := by
  induction calls generalizing acc with
  | nil => exact hacc
  | cons c cs ih =>
    rw [List.foldl_cons, aggStep_nil]
    apply ih
    intro m hm
    rcases List.mem_append.mp hm with h | h
    · exact hacc m h
    · rw [List.mem_singleton.mp h]
      exact aggregate_nil_trend c.track_id c.timestamp c.stats c.raw

/-- C2: no operation of the aggregator appends to phone_history (aggregate
returns the state unchanged and cleanup_track_history only deletes), so
every metrics record produced by any sequence of aggregate calls from a
fresh aggregator has a stable phone trend. -/
theorem aggregator_never_appends_history :
    (∀ (st : AggState) (tid : ℤ) (ts : ℚ) (stats : Stats) (raw : Option ℚ),
       (aggregate st tid ts stats raw).1 = st) ∧
    (∀ (st : AggState) (tid : ℤ), (cleanup_track_history st tid).Sublist st) ∧
    (∀ (calls : List AggArgs), ∀ m ∈ (runAggregates calls).2,
       m.phone_trend = "stable") := by
  refine ⟨aggregate_fst, ?_, ?_⟩
  · intro st tid
    exact List.filter_sublist st
  · intro calls m hm
    exact runAgg_trend_aux calls [] (by intro x hx; cases hx) m hm

/-- Witness for C2 at a one-call sequence with a high fused risk. -/
theorem aggregator_never_appends_history_witness :
    (aggregate ([] : AggState) 1 10 statsLeft (some 1)).2 ∈
      (runAggregates [⟨1, 10, statsLeft, some 1⟩]).2 ∧
    (aggregate ([] : AggState) 1 10 statsLeft (some 1)).2.phone_trend = "stable" :=
  ⟨of_decide_eq_true (by with_unfolding_all rfl),
   (aggregator_never_appends_history).2.2 [⟨1, 10, statsLeft, some 1⟩]
     (aggregate ([] : AggState) 1 10 statsLeft (some 1)).2
     (of_decide_eq_true (by with_unfolding_all rfl))⟩

/-! ## C4: engagement-risk formula and level -/

/-- The risk combination written as in the specification equals the code
computation. -/
theorem calc_engagement_risk_eq (a p l : ℚ) :
    calc_engagement_risk a p l =
      pymin 1 (pymax 0 (0.4 * (1 - a) + 0.35 * p + 0.25 * l)) := by
  unfold calc_engagement_risk pymin pymax
  norm_num
  ring_nf

/-- C4: for every non-empty aggregation the stored engagement risk score
is the weighted combination of the stored attention, phone-risk and
looking-away fields clamped to the unit interval, and the stored level is
the threshold classification of that score. -/
theorem aggregate_engagement_risk_formula (st : AggState) (tid : ℤ) (ts : ℚ)
    (stats : Stats) (raw : Option ℚ) (h : stats.feature_count ≠ 0) :
    ((aggregate st tid ts stats raw).2.engagement_risk_score =
      pymin 1 (pymax 0 (0.4 * (1 - (aggregate st tid ts stats raw).2.attention_score) +
        0.35 * (aggregate st tid ts stats raw).2.phone_risk_score +
        0.25 * (aggregate st tid ts stats raw).2.looking_away_rate))) ∧
    ((aggregate st tid ts stats raw).2.engagement_risk_level =
      if (aggregate st tid ts stats raw).2.engagement_risk_score < 0.33 then "low"
      else if (aggregate st tid ts stats raw).2.engagement_risk_score < 0.67 then
        "medium"
      else "high") := by
  have he : aggregate st tid ts stats raw = (st, aggregateMetrics st tid ts stats raw) := by
    unfold aggregate
    rw [if_neg h]
  rw [he]
  constructor
  · exact calc_engagement_risk_eq (attScore stats)
      (phoneRiskOf tid stats raw) (1 - attScore stats)
  · rfl

/-- Witness for C4: attention 0, fused risk 1, looking away 1 give the
score 1 and the level high. -/
theorem aggregate_engagement_risk_formula_witness :
    statsLeft.feature_count ≠ 0 ∧
    ((aggregate [] 1 10 statsLeft (some 1)).2.engagement_risk_score =
      pymin 1 (pymax 0 (0.4 * (1 - (aggregate [] 1 10 statsLeft (some 1)).2.attention_score) +
        0.35 * (aggregate [] 1 10 statsLeft (some 1)).2.phone_risk_score +
        0.25 * (aggregate [] 1 10 statsLeft (some 1)).2.looking_away_rate))) ∧
    (aggregate [] 1 10 statsLeft (some 1)).2.attention_score = 0 ∧
    (aggregate [] 1 10 statsLeft (some 1)).2.phone_risk_score = 1 ∧
    (aggregate [] 1 10 statsLeft (some 1)).2.looking_away_rate = 1 ∧
    (aggregate [] 1 10 statsLeft (some 1)).2.engagement_risk_score = 1 ∧
    (aggregate [] 1 10 statsLeft (some 1)).2.engagement_risk_level = "high" :=
  ⟨by decide,
   (aggregate_engagement_risk_formula [] 1 10 statsLeft (some 1) (by decide)).1,
   of_decide_eq_true (by with_unfolding_all rfl),
   of_decide_eq_true (by with_unfolding_all rfl),
   of_decide_eq_true (by with_unfolding_all rfl),
   of_decide_eq_true (by with_unfolding_all rfl),
   of_decide_eq_true (by with_unfolding_all rfl)⟩

/-! ## C5: phone-trend classification -/

/-- C5 counterexample: on a five-sample history whose two oldest samples
differ, the code compares against the mean of the two preceding samples
while the claim text compares against the single earliest sample, and the
two classifications disagree. -/
theorem phone_trend_five_sample_divergence :
    calc_phone_trend [(1, [0, 0.6, 0.4, 0.4, 0.4])] 1 (0.4 : ℚ) = "stable" ∧
    phone_trend_claim [0, 0.6, 0.4, 0.4, 0.4] = "increasing" :=
  ⟨of_decide_eq_true (by with_unfolding_all rfl),
   of_decide_eq_true (by with_unfolding_all rfl)⟩

/-- C5 amended: with fewer than 2 samples the trend is stable; with
exactly 2 the two are compared directly; with at least 3 the mean of the
last 3 samples is compared against the mean of all samples before those 3,
or against the single earliest sample when none precede; the comparison
uses tolerance 0.1. -/
theorem phone_trend_characterization (h : List ℚ) :
    (h.length < 2 → calcPhoneTrendHist h = "stable") ∧
    (h.length = 2 → calcPhoneTrendHist h =
      trend_classify (h.getLastD 0) (h.headD 0)) ∧
    (3 ≤ h.length → calcPhoneTrendHist h =
      trend_classify ((h.drop (h.length - 3)).sum / 3)
        (if 3 < h.length then
           (h.take (h.length - 3)).sum / (((h.length - 3 : ℕ)) : ℚ)
         else h.headD 0)) := by
  refine ⟨?_, ?_, ?_⟩
  · intro hl
    unfold calcPhoneTrendHist
    rw [if_pos hl]
  · intro hl
    unfold calcPhoneTrendHist trend_classify
    rw [if_neg (by omega)]
    simp only [hl]
    norm_num
  · intro hl
    unfold calcPhoneTrendHist trend_classify
    rw [if_neg (by omega), if_pos hl, if_pos hl]

/-- Witness for C5 amended at the trend-determinism test vector, which
classifies as increasing. -/
theorem phone_trend_characterization_witness :
    3 ≤ hTrend.length ∧
    (calcPhoneTrendHist hTrend =
      trend_classify ((hTrend.drop (hTrend.length - 3)).sum / 3)
        (if 3 < hTrend.length then
           (hTrend.take (hTrend.length - 3)).sum / (((hTrend.length - 3 : ℕ)) : ℚ)
         else hTrend.headD 0)) ∧
    calcPhoneTrendHist hTrend = "increasing" :=
  ⟨by decide,
   (phone_trend_characterization hTrend).2.2 (by decide),
   of_decide_eq_true (by with_unfolding_all rfl)⟩

/-! ## C6: sliding-window invariant of add_feature -/

/-- On a buffer whose timestamps are sorted, the head-pruning loop removes
exactly the stale entries. -/
theorem pruneOld_eq_filter (c : ℚ) (l : List BufferedFeature)
    (hs : (l.map (fun f => f.timestamp)).Sorted (· ≤ ·)) :
    pruneOld c l = l.filter (fun g => decide (c ≤ g.timestamp)) := by
  induction l with
  | nil => rfl
  | cons g rest ih =>
    rw [List.map_cons, List.sorted_cons] at hs
    obtain ⟨hle, hsrest⟩ := hs
    by_cases hg : g.timestamp < c
    · rw [pruneOld, if_pos hg, ih hsrest, List.filter_cons]
      simp [not_le.mpr hg]
    · rw [pruneOld, if_neg hg, List.filter_cons]
      have hcg : c ≤ g.timestamp := not_lt.mp hg
      have hrest : rest.filter (fun g => decide (c ≤ g.timestamp)) = rest := by
        apply List.filter_eq_self.mpr
        intro a ha
        have hga : g.timestamp ≤ a.timestamp :=
          hle a.timestamp (List.mem_map_of_mem _ ha)
        simp [le_trans hcg hga]
      simp [hcg, hrest]

/-- C6: with per-entity timestamps monotonically non-decreasing, add
appends the new observation at the tail and prunes exactly the entries
older than the new timestamp minus the window size; afterwards every
retained observation is inside the window and last_update is the new
timestamp. -/
theorem add_feature_window_invariant (b : StudentFeatureBuffer) (ts : ℚ)
    (hd : String) (pd : Bool) (conf : ℚ) (box : ℚ × ℚ × ℚ × ℚ)
    (idn : Option String)
    (hs : (b.features.map (fun f => f.timestamp)).Sorted (· ≤ ·))
    (hmono : ∀ g ∈ b.features, g.timestamp ≤ ts) :
    ((add_feature b ts hd pd conf box idn).features =
      (b.features ++ [({ timestamp := ts, head_direction := hd, phone_detected := pd,
                         confidence := conf, bbox := box,
                         identity_name := idn } : BufferedFeature)]).filter
        (fun g => decide (ts - b.window_size ≤ g.timestamp))) ∧
    (∀ g ∈ (add_feature b ts hd pd conf box idn).features,
       ts - b.window_size ≤ g.timestamp) ∧
    (add_feature b ts hd pd conf box idn).last_update = some ts := by
  have hs2 : (((b.features ++
      [({ timestamp := ts, head_direction := hd, phone_detected := pd,
          confidence := conf, bbox := box,
          identity_name := idn } : BufferedFeature)]).map
        (fun f => f.timestamp)).Sorted (· ≤ ·)) := by
    rw [List.map_append, List.Sorted, List.pairwise_append]
    refine ⟨hs, List.sorted_singleton _, ?_⟩
    intro a ha c hc
    rw [List.mem_map] at ha
    obtain ⟨g, hg, rfl⟩ := ha
    rw [List.map_cons, List.map_nil, List.mem_singleton] at hc
    rw [hc]
    exact hmono g hg
  have hfe : (add_feature b ts hd pd conf box idn).features =
      pruneOld (ts - b.window_size)
        (b.features ++ [({ timestamp := ts, head_direction := hd, phone_detected := pd,
                           confidence := conf, bbox := box,
                           identity_name := idn } : BufferedFeature)]) := rfl
  rw [hfe, pruneOld_eq_filter _ _ hs2]
  refine ⟨rfl, ?_, rfl⟩
  intro g hg
  have := (List.mem_filter.mp hg).2
  exact of_decide_eq_true this

/-- Witness for C6: adding a feature at time 12 to a 10 second window
prunes the observation at time 0 and keeps the one at time 5. -/
theorem add_feature_window_invariant_witness :
    ((add_feature b6 12 "forward" false 1 (0, 0, 0, 0) none).features =
      (b6.features ++ [({ timestamp := 12, head_direction := "forward",
                          phone_detected := false, confidence := 1,
                          bbox := (0, 0, 0, 0),
                          identity_name := none } : BufferedFeature)]).filter
        (fun g => decide ((12 : ℚ) - b6.window_size ≤ g.timestamp))) ∧
    (add_feature b6 12 "forward" false 1 (0, 0, 0, 0) none).last_update = some 12 :=
  ⟨(add_feature_window_invariant b6 12 "forward" false 1 (0, 0, 0, 0) none
      (of_decide_eq_true (by with_unfolding_all rfl))
      (of_decide_eq_true (by with_unfolding_all rfl))).1,
   (add_feature_window_invariant b6 12 "forward" false 1 (0, 0, 0, 0) none
      (of_decide_eq_true (by with_unfolding_all rfl))
      (of_decide_eq_true (by with_unfolding_all rfl))).2.2⟩

/-! ## C9: eviction of inactive students -/

/-- A lookup misses when no entry carries the key. -/
theorem lookup_eq_none_of_forall {α : Type} (l : List (ℤ × α)) (k : ℤ)
    (h : ∀ p ∈ l, p.1 ≠ k) : l.lookup k = none := by
  induction l with
  | nil => rfl
  | cons p rest ih =>
    obtain ⟨a, v⟩ := p
    have ha : a ≠ k := h (a, v) (List.mem_cons_self _ _)
    have hba : (k == a) = false := beq_eq_false_iff_ne.mpr (Ne.symm ha)
    simp only [List.lookup, hba]
    exact ih fun p hp => h p (List.mem_cons_of_mem _ hp)

/-- Under distinct keys, a successful lookup is the same as membership. -/
theorem lookup_eq_some_iff {α : Type} (l : List (ℤ × α))
    (hnd : (l.map Prod.fst).Nodup) (k : ℤ) (v : α) :
    l.lookup k = some v ↔ (k, v) ∈ l := by
  induction l with
  | nil => simp [List.lookup]
  | cons p rest ih =>
    obtain ⟨a, b⟩ := p
    rw [List.map_cons, List.nodup_cons] at hnd
    obtain ⟨hna, hnd2⟩ := hnd
    by_cases hk : k = a
    · subst hk
      simp only [List.lookup, beq_self_eq_true, List.mem_cons]
      constructor
      · intro hv
        left
        rw [Option.some.injEq] at hv
        rw [hv]
      · intro hv
        rcases hv with hv | hv
        · rw [(Prod.mk.injEq _ _ _ _).mp hv.symm |>.2]
        · exact absurd (List.mem_map_of_mem Prod.fst hv) hna
    · have hba : (k == a) = false := beq_eq_false_iff_ne.mpr hk
      simp only [List.lookup, hba, List.mem_cons]
      rw [ih hnd2]
      constructor
      · intro hv
        exact Or.inr hv
      · intro hv
        rcases hv with hv | hv
        · exact absurd (congrArg Prod.fst hv) hk
        · exact hv

/-- Lookup through a filter under distinct keys. -/
theorem lookup_filter_of_nodup {α : Type} (l : List (ℤ × α)) (q : ℤ × α → Bool)
    (k : ℤ) (hnd : (l.map Prod.fst).Nodup) :
    (l.filter q).lookup k =
      match l.lookup k with
      | some v => if q (k, v) then some v else none
      | none => none := by
  induction l with
  | nil => rfl
  | cons p rest ih =>
    obtain ⟨a, b⟩ := p
    rw [List.map_cons, List.nodup_cons] at hnd
    obtain ⟨hna, hnd2⟩ := hnd
    by_cases hk : k = a
    · subst hk
      by_cases hq : q (k, b)
      · rw [List.filter_cons, if_pos hq]
        simp [List.lookup, hq]
      · have hql : q (k, b) = false := Bool.eq_false_iff.mpr hq
        rw [List.filter_cons, if_neg (by rw [hql]; exact Bool.false_ne_true)]
        have hrest : (rest.filter q).lookup k = none := by
          apply lookup_eq_none_of_forall
          intro p hp he
          have hp2 : p ∈ rest := List.mem_of_mem_filter hp
          have hmem2 : p.1 ∈ rest.map Prod.fst := List.mem_map_of_mem Prod.fst hp2
          rw [he] at hmem2
          exact hna hmem2
        rw [hrest]
        simp [List.lookup, hql]
    · have hba : (k == a) = false := beq_eq_false_iff_ne.mpr hk
      by_cases hq : q (a, b)
      · rw [List.filter_cons, if_pos (by rw [hq])]
        simp only [List.lookup, hba]
        exact ih hnd2
      · have hql : q (a, b) = false := Bool.eq_false_iff.mpr hq
        rw [List.filter_cons, if_neg (by rw [hql]; exact Bool.false_ne_true)]
        rw [ih hnd2]
        simp only [List.lookup, hba]

/-- The inactivity test holds exactly when the buffer has a last update
older than the timeout. -/
theorem cleanupPred_iff (now timeout : ℚ) (b : StudentFeatureBuffer) :
    cleanupPred now timeout b = true ↔
      ∃ t, b.last_update = some t ∧ timeout < now - t := by
  unfold cleanupPred
  cases hb : b.last_update with
  | none => simp
  | some t => simp

/-- C9: under distinct keys, evict_inactive returns exactly the ids whose
last update is older than the timeout, each exactly once; their buffers
are removed so later queries miss, and every other buffer is untouched. -/
theorem cleanup_inactive_correct (fb : FeatureBuffer) (now timeout : ℚ) (tid : ℤ)
    (hnd : (fb.buffers.map Prod.fst).Nodup) :
    (tid ∈ (cleanup_inactive_students fb now timeout).2 ↔
      ∃ b, fb.buffers.lookup tid = some b ∧
        ∃ t, b.last_update = some t ∧ timeout < now - t) ∧
    (tid ∈ (cleanup_inactive_students fb now timeout).2 →
      (cleanup_inactive_students fb now timeout).2.count tid = 1) ∧
    (tid ∈ (cleanup_inactive_students fb now timeout).2 →
      get_student_statistics (cleanup_inactive_students fb now timeout).1 tid = none) ∧
    (tid ∉ (cleanup_inactive_students fb now timeout).2 →
      (cleanup_inactive_students fb now timeout).1.buffers.lookup tid =
        fb.buffers.lookup tid) := by
  have hmem : tid ∈ (cleanup_inactive_students fb now timeout).2 ↔
      ∃ b, fb.buffers.lookup tid = some b ∧ cleanupPred now timeout b = true := by
    unfold cleanup_inactive_students
    simp only [List.mem_map]
    constructor
    · rintro ⟨p, hpf, hfst⟩
      obtain ⟨hpl, hq⟩ := List.mem_filter.mp hpf
      refine ⟨p.2, ?_, hq⟩
      rw [lookup_eq_some_iff fb.buffers hnd tid p.2]
      have : p = (tid, p.2) := by
        rw [← hfst]
      rw [← this]
      exact hpl
    · rintro ⟨b, hl, hq⟩
      refine ⟨(tid, b), List.mem_filter.mpr ⟨?_, hq⟩, rfl⟩
      exact (lookup_eq_some_iff fb.buffers hnd tid b).mp hl
  refine ⟨?_, ?_, ?_, ?_⟩
  · rw [hmem]
    constructor
    · rintro ⟨b, hl, hq⟩
      exact ⟨b, hl, (cleanupPred_iff now timeout b).mp hq⟩
    · rintro ⟨b, hl, ht⟩
      exact ⟨b, hl, (cleanupPred_iff now timeout b).mpr ht⟩
  · intro hin
    apply List.count_eq_one_of_mem _ hin
    apply List.Nodup.sublist _ hnd
    exact List.Sublist.map Prod.fst (List.filter_sublist fb.buffers)
  · intro hin
    obtain ⟨b, hl, hq⟩ := hmem.mp hin
    unfold get_student_statistics
    have hlf : (cleanup_inactive_students fb now timeout).1.buffers.lookup tid = none := by
      unfold cleanup_inactive_students
      rw [lookup_filter_of_nodup fb.buffers _ tid hnd, hl]
      simp [hq]
    rw [hlf]
  · intro hout
    unfold cleanup_inactive_students
    rw [lookup_filter_of_nodup fb.buffers _ tid hnd]
    cases hl : fb.buffers.lookup tid with
    | none => rfl
    | some b =>
      have hq : cleanupPred now timeout b = false := by
        by_contra hq
        have := Bool.not_eq_false _ |>.mp hq
        exact hout (hmem.mpr ⟨b, hl, this⟩)
      simp [hq]

/-- Witness for C9: in a map with a stale and a fresh student, eviction at
time 100 with timeout 50 removes exactly the stale one and its buffer. -/
theorem cleanup_inactive_correct_witness :
    (1 : ℤ) ∈ (cleanup_inactive_students fb9 100 50).2 ∧
    (cleanup_inactive_students fb9 100 50).2.count 1 = 1 ∧
    get_student_statistics (cleanup_inactive_students fb9 100 50).1 1 = none :=
  ⟨of_decide_eq_true (by with_unfolding_all rfl),
   (cleanup_inactive_correct fb9 100 50 1 (by decide)).2.1
     (of_decide_eq_true (by with_unfolding_all rfl)),
   (cleanup_inactive_correct fb9 100 50 1 (by decide)).2.2.1
     (of_decide_eq_true (by with_unfolding_all rfl))⟩

/-! ## C10: head-direction distribution -/

/-- Counting one element together with the differing survivors of a
filter accounts for all survivors of the filter. -/
theorem filter_and_ne_length_pos (P : String → Bool) (d : String)
    (hPd : P d = true) (l : List String) :
    l.count d + (l.filter (fun x => P x && !(x == d))).length =
      (l.filter P).length := by
  induction l with
  | nil => rfl
  | cons y ys ih =>
    by_cases hy : y = d
    · subst hy
      rw [List.count_cons_self, List.filter_cons, List.filter_cons]
      simp only [beq_self_eq_true, Bool.not_true, Bool.and_false,
        Bool.false_eq_true, if_false, hPd, if_true, List.length_cons]
      omega
    · have hne : (y == d) = false := beq_eq_false_iff_ne.mpr hy
      rw [List.count_cons_of_ne (fun he => hy he.symm) ys, List.filter_cons,
        List.filter_cons]
      simp only [hne, Bool.not_false, Bool.and_true]
      by_cases hPy : P y = true
      · simp only [hPy, if_true, List.length_cons]
        omega
      · simp only [Bool.not_eq_true] at hPy
        simp only [hPy, Bool.false_eq_true, if_false]
        exact ih

/-- When the filter rejects the element, excluding it changes nothing. -/
theorem filter_and_ne_length_neg (P : String → Bool) (d : String)
    (hPd : P d = false) (l : List String) :
    (l.filter (fun x => P x && !(x == d))).length = (l.filter P).length := by
  induction l with
  | nil => rfl
  | cons y ys ih =>
    rw [List.filter_cons, List.filter_cons]
    by_cases hy : y = d
    · subst hy
      simp only [hPd, Bool.false_and, Bool.false_eq_true, if_false]
      exact ih
    · have hne : (y == d) = false := beq_eq_false_iff_ne.mpr hy
      simp only [hne, Bool.not_false, Bool.and_true]
      by_cases hPy : P y = true
      · simp only [hPy, if_true, List.length_cons]
        omega
      · simp only [Bool.not_eq_true] at hPy
        simp only [hPy, Bool.false_eq_true, if_false]
        exact ih

/-- Over any filter of the first occurrences, the counts sum to the
number of surviving elements. -/
theorem sum_firstOccs_count_gen :
    ∀ (l : List String) (P : String → Bool),
      (((firstOccs l).filter P).map (fun x => l.count x)).sum =
        (l.filter P).length := by
  intro l
  induction l with
  | nil => intro P; rfl
  | cons d rest ih =>
    intro P
    simp only [firstOccs, List.filter_cons, List.filter_filter]
    have hcongr : ((firstOccs rest).filter (fun x => P x && !(x == d))).map
        (fun x => (d :: rest).count x) =
        ((firstOccs rest).filter (fun x => P x && !(x == d))).map
          (fun x => rest.count x) := by
      apply List.map_congr_left
      intro x hx
      have hQ := (List.mem_filter.mp hx).2
      have hxd : x ≠ d := by
        intro he
        rw [he] at hQ
        simp at hQ
      exact List.count_cons_of_ne hxd rest
    by_cases hPd : P d = true
    · rw [if_pos hPd, if_pos hPd, List.map_cons, List.sum_cons,
        List.count_cons_self, hcongr, ih, List.length_cons]
      have := filter_and_ne_length_pos P d hPd rest
      omega
    · simp only [Bool.not_eq_true] at hPd
      rw [if_neg (by rw [hPd]; exact Bool.false_ne_true),
        if_neg (by rw [hPd]; exact Bool.false_ne_true), hcongr, ih]
      exact filter_and_ne_length_neg P d hPd rest

/-- The counts over the first occurrences sum to the length of the list. -/
theorem sum_firstOccs_count (l : List String) :
    ((firstOccs l).map (fun x => l.count x)).sum = l.length := by
  have h := sum_firstOccs_count_gen l (fun x => true)
  rw [List.filter_true, List.filter_true] at h
  exact h

/-- Dividing each mapped value by a constant divides the sum. -/
theorem list_sum_map_div (l : List String) (f : String → ℚ) (c : ℚ) :
    (l.map (fun d => f d / c)).sum = (l.map f).sum / c := by
  induction l with
  | nil => simp
  | cons d rest ih => simp [ih, add_div]

/-- Casting each mapped count to the rationals casts the sum. -/
theorem list_sum_map_cast (l : List String) (f : String → ℕ) :
    (l.map (fun d => ((f d : ℕ) : ℚ))).sum = (((l.map f).sum : ℕ) : ℚ) := by
  induction l with
  | nil => simp
  | cons d rest ih => simp [ih]

/-- The unrounded head-direction fractions of a non-empty buffer sum to
exactly one. -/
theorem sum_distRaw (features : List BufferedFeature) (hne : features ≠ []) :
    ((distRaw features).map Prod.snd).sum = 1 := by
  unfold distRaw
  rw [List.map_map]
  have hcomp : (Prod.snd ∘ fun d =>
      (d, (((features.map (fun f => f.head_direction)).count d : ℕ) : ℚ) /
          (((features.map (fun f => f.head_direction)).length : ℕ) : ℚ))) =
      fun d => (((features.map (fun f => f.head_direction)).count d : ℕ) : ℚ) /
          (((features.map (fun f => f.head_direction)).length : ℕ) : ℚ) := rfl
  rw [hcomp, list_sum_map_div, list_sum_map_cast,
    sum_firstOccs_count (features.map (fun f => f.head_direction))]
  have hlen : (((features.map (fun f => f.head_direction)).length : ℕ) : ℚ) ≠ 0 := by
    rw [List.length_map]
    exact_mod_cast fun h => hne (List.length_eq_zero.mp h)
  exact div_self hlen

set_option maxRecDepth 4000 in
/-- C10 counterexample: for three features with three distinct head
directions the returned distribution holds the rounded value 0.333 three
times, so the returned fractions sum to 0.999, not 1. -/
theorem distribution_rounded_sum_ne_one :
    (((get_statistics bDist).head_direction_distribution).map Prod.snd).sum =
      999/1000 ∧
    (((get_statistics bDist).head_direction_distribution).map Prod.snd).sum ≠ 1 :=
  ⟨of_decide_eq_true (by with_unfolding_all rfl),
   of_decide_eq_true (by with_unfolding_all rfl)⟩

/-- C10 amended: for every non-empty buffer the underlying head-direction
fractions sum to exactly one, and the statistics query returns exactly
those fractions rounded to three decimal places, so the returned values
can sum to slightly less or more than one. -/
theorem distribution_raw_sums_to_one (b : StudentFeatureBuffer)
    (hne : b.features ≠ []) :
    ((distRaw b.features).map Prod.snd).sum = 1 ∧
    (get_statistics b).head_direction_distribution =
      (distRaw b.features).map (fun p => (p.1, pyRound3 p.2)) := by
  refine ⟨sum_distRaw b.features hne, ?_⟩
  obtain ⟨f, fs, hb⟩ : ∃ f fs, b.features = f :: fs := by
    cases hfe : b.features with
    | nil => exact absurd hfe hne
    | cons f fs => exact ⟨f, fs, rfl⟩
  simp only [get_statistics, hb]

/-- Witness for C10 amended at the three-direction buffer. -/
theorem distribution_raw_sums_to_one_witness :
    bDist.features ≠ [] ∧
    ((distRaw bDist.features).map Prod.snd).sum = 1 :=
  ⟨by decide, (distribution_raw_sums_to_one bDist (by decide)).1⟩
